import Mathlib

/-!
# Shallow embedding of the ChainCheck contract

This file embeds the Solidity contract `ChainCheck` (product-authenticity
verification) as pure Lean functions over an explicit `State` record, and
proves the specification claims about it.

Modelling conventions:
* `bytes32` serial hashes and `address` values are modelled as `Nat`
  (opaque identifiers; the zero address is `0`).
* `uint256` values are modelled as `Nat`.  Solidity 0.8 arithmetic reverts
  on overflow rather than wrapping, and the only arithmetic in the contract
  is counter increments, so `Nat` addition is a faithful model of every
  non-reverting execution.
* Solidity mappings become total functions with a default value, updated
  pointwise by `upd`.
* A reverting call is modelled as `Except.error e`: the caller's state is
  unchanged (revert discards all writes), which the `Except` embedding makes
  structural.
* `msg.sender` and `block.timestamp` are explicit parameters.
* Emitted events are accumulated in an append-only `events` log.
-/

namespace ChainCheck

/-- Pointwise update of a mapping, `m[k] := v`. -/
def upd {α : Type} (m : Nat → α) (k : Nat) (v : α) : Nat → α :=
  fun x => if x = k then v else m x

/-- The contract's custom errors (plus `LengthMismatch` for the
`require` string revert in `batchVerify`). -/
inductive Err where
  | NotOwner | NotAuthorized | InvalidAddress | InvalidBatchId | BatchExists
  | BatchNotFound | EmptyName | EmptyBrand | NoSerials | InvalidOwner
  | ContractPaused | ContractNotPaused | SerialNotInBatch | LengthMismatch
  deriving DecidableEq, Repr

/-- The `Product` struct. -/
structure Product where
  name : String
  brand : String
  exists' : Bool
  registeredAt : Nat
  ipfsHash : String
  description : String
  imageUrl : String
  deriving DecidableEq, Repr

/-- The `VerificationRecord` struct. -/
structure VerificationRecord where
  serialHash : Nat
  batchId : Nat
  verifier : Nat
  timestamp : Nat
  isAuthentic : Bool
  deriving DecidableEq, Repr

/-- The contract's events. -/
inductive Event where
  | ProductRegistered (batchId : Nat) (name brand : String) (serialCount : Nat)
  | Verified (serialHash batchId : Nat) (isAuthentic : Bool) (verifier timestamp : Nat)
  | ManufacturerAuthorized (maker : Nat) (authorized : Bool)
  | PausedEvent (paused : Bool)
  deriving DecidableEq, Repr

/-- The contract storage (plus the event log). -/
structure State where
  serialVerified : Nat → Bool
  serialToBatch : Nat → Nat
  products : Nat → Product
  authorizedMakers : Nat → Bool
  owner : Nat
  totalProducts : Nat
  totalVerifications : Nat
  batchVerificationCount : Nat → Nat
  manufacturerList : List Nat
  paused : Bool
  verificationHistory : Nat → List VerificationRecord
  events : List Event

/-- The default (never-written) `Product` slot of the `products` mapping. -/
def emptyProduct : Product :=
  { name := "", brand := "", exists' := false, registeredAt := 0,
    ipfsHash := "", description := "", imageUrl := "" }

/-- The constructor: deployer becomes owner and an authorized manufacturer. -/
def initState (deployer : Nat) : State :=
  { serialVerified := fun _ => false
    serialToBatch := fun _ => 0
    products := fun _ => emptyProduct
    authorizedMakers := upd (fun _ => false) deployer true
    owner := deployer
    totalProducts := 0
    totalVerifications := 0
    batchVerificationCount := fun _ => 0
    manufacturerList := [deployer]
    paused := false
    verificationHistory := fun _ => []
    events := [Event.ManufacturerAuthorized deployer true] }

/-- Swap-and-truncate removal used by `authorizeManufacturer` when revoking:
scan for the first occurrence of `a`, overwrite it with the last element,
and pop the last element.  If `a` is absent the list is unchanged. -/
def swapRemove (l : List Nat) (a : Nat) : List Nat :=
  if a ∈ l then (l.set (l.indexOf a) (l.getLast?.getD 0)).dropLast else l

/-- `authorizeManufacturer(maker, authorized)` (checks in source order:
`onlyOwner`, zero-address, flag write, list maintenance, event). -/
def authorizeManufacturer (sender maker : Nat) (grant : Bool) (s : State) :
    Except Err State :=
  if sender ≠ s.owner then .error .NotOwner
  else if maker = 0 then .error .InvalidAddress
  else
    let wasAuthorized := s.authorizedMakers maker
    let s1 := { s with authorizedMakers := upd s.authorizedMakers maker grant }
    let s2 :=
      if grant && !wasAuthorized then
        { s1 with manufacturerList := s1.manufacturerList ++ [maker] }
      else if !grant && wasAuthorized then
        { s1 with manufacturerList := swapRemove s1.manufacturerList maker }
      else s1
    .ok { s2 with events := s2.events ++ [Event.ManufacturerAuthorized maker grant] }

/-- `registerProduct` (modifier order `onlyMaker`, `whenNotPaused`, then the
five validations, then the batch record, the serial-to-batch writes, the
counter increment and the event). -/
def registerProduct (sender time : Nat) (batchId : Nat) (name brand : String)
    (serialHashes : List Nat) (ipfsHash description imageUrl : String)
    (s : State) : Except Err State :=
  if !s.authorizedMakers sender then .error .NotAuthorized
  else if s.paused then .error .ContractPaused
  else if batchId = 0 then .error .InvalidBatchId
  else if name = "" then .error .EmptyName
  else if brand = "" then .error .EmptyBrand
  else if serialHashes = [] then .error .NoSerials
  else if (s.products batchId).exists' then .error .BatchExists
  else
    let s1 := { s with
      products := upd s.products batchId
        { name := name, brand := brand, exists' := true, registeredAt := time,
          ipfsHash := ipfsHash, description := description, imageUrl := imageUrl }
      serialToBatch := serialHashes.foldl (fun m h => upd m h batchId) s.serialToBatch
      totalProducts := s.totalProducts + 1 }
    .ok { s1 with
      events := s1.events ++ [Event.ProductRegistered batchId name brand serialHashes.length] }

/-- The unguarded body of `verify` (lines 344-367): compute authenticity,
conditionally flip the status and bump the counters, append the history
record and the event.  Shared verbatim by `verify` and `batchVerify`. -/
def verifyCore (sender time f b : Nat) (s : State) : Bool × State :=
  let isAuthentic := !s.serialVerified f
  let s1 :=
    if isAuthentic then
      { s with serialVerified := upd s.serialVerified f true
               totalVerifications := s.totalVerifications + 1
               batchVerificationCount :=
                 upd s.batchVerificationCount b (s.batchVerificationCount b + 1) }
    else s
  let s2 := { s1 with
    verificationHistory := upd s1.verificationHistory f
      (s1.verificationHistory f ++
        [{ serialHash := f, batchId := b, verifier := sender,
           timestamp := time, isAuthentic := isAuthentic }])
    events := s1.events ++ [Event.Verified f b isAuthentic sender time] }
  (isAuthentic, s2)

/-- `verify(serialHash, batchId)` (modifier `whenNotPaused`, then the three
guards, then the shared body). -/
def verify (sender time f b : Nat) (s : State) : Except Err (Bool × State) :=
  if s.paused then .error .ContractPaused
  else if b = 0 then .error .InvalidBatchId
  else if (s.products b).exists' = false then .error .BatchNotFound
  else if s.serialToBatch f ≠ b then .error .SerialNotInBatch
  else .ok (verifyCore sender time f b s)

/-- The three per-entry `continue` guards of the `batchVerify` loop
(lines 482-495): zero batch id, unregistered batch, or a serial that does
not belong to the claimed batch.  Such an entry is skipped with result
`false` and no state change. -/
def badEntry (s : State) (e : Nat × Nat) : Prop :=
  e.2 = 0 ∨ (s.products e.2).exists' = false ∨ s.serialToBatch e.1 ≠ e.2

instance (s : State) (e : Nat × Nat) : Decidable (badEntry s e) := by
  unfold badEntry; infer_instance

/-- One iteration of the `batchVerify` loop: a `badEntry` yields `false`
(`continue`); otherwise the entry runs the same body as `verify`.  The
accumulator pairs each processed fingerprint with its result, in input
order. -/
def bvStep (sender time : Nat) (acc : State × List (Nat × Bool)) (e : Nat × Nat) :
    State × List (Nat × Bool) :=
  if badEntry acc.1 e then
    (acc.1, acc.2 ++ [(e.1, false)])
  else
    let p := verifyCore sender time e.1 e.2 acc.1
    (p.2, acc.2 ++ [(e.1, p.1)])

/-- The `batchVerify` loop over the zipped argument arrays. -/
def bvGo (sender time : Nat) (l : List (Nat × Nat)) (s : State) :
    State × List (Nat × Bool) :=
  l.foldl (bvStep sender time) (s, [])

/-- `batchVerify(serialHashes, batchIds)` (modifier `whenNotPaused`, then the
length `require`, then the loop).  The Solidity function returns the `bool[]`
results array, i.e. the second components of the loop's outcome pairs. -/
def batchVerify (sender time : Nat) (fs bs : List Nat) (s : State) :
    Except Err (List Bool × State) :=
  if s.paused then .error .ContractPaused
  else if fs.length ≠ bs.length then .error .LengthMismatch
  else
    let p := bvGo sender time (fs.zip bs) s
    .ok (p.2.map Prod.snd, p.1)

/-- `transferOwnership(newOwner)` (`onlyOwner`, zero-address and same-owner
guards, then owner reassignment and the two flag writes; note the
manufacturer enumeration list is not touched). -/
def transferOwnership (sender newOwner : Nat) (s : State) : Except Err State :=
  if sender ≠ s.owner then .error .NotOwner
  else if newOwner = 0 then .error .InvalidAddress
  else if newOwner = s.owner then .error .InvalidOwner
  else
    let oldOwner := s.owner
    .ok { s with
      owner := newOwner
      authorizedMakers := upd (upd s.authorizedMakers oldOwner false) newOwner true
      events := s.events ++ [Event.ManufacturerAuthorized oldOwner false,
                             Event.ManufacturerAuthorized newOwner true] }

/-- `pause()` (`onlyOwner`, `whenNotPaused`). -/
def pause (sender : Nat) (s : State) : Except Err State :=
  if sender ≠ s.owner then .error .NotOwner
  else if s.paused then .error .ContractPaused
  else .ok { s with paused := true, events := s.events ++ [Event.PausedEvent true] }

/-- `unpause()` (`onlyOwner`, `whenPaused`). -/
def unpause (sender : Nat) (s : State) : Except Err State :=
  if sender ≠ s.owner then .error .NotOwner
  else if s.paused = false then .error .ContractNotPaused
  else .ok { s with paused := false, events := s.events ++ [Event.PausedEvent false] }

/-- The field-update block of `updateProductMetadata` (lines 603-612):
each metadata field is overwritten only when the supplied string is
non-empty. -/
def metaPatch (p : Product) (ipfsHash description imageUrl : String) : Product :=
  let p1 := if ipfsHash ≠ "" then { p with ipfsHash := ipfsHash } else p
  let p2 := if description ≠ "" then { p1 with description := description } else p1
  if imageUrl ≠ "" then { p2 with imageUrl := imageUrl } else p2

/-- `updateProductMetadata(batchId, ipfsHash, description, imageUrl)`
(`onlyMaker`, `whenNotPaused`, two guards, then the conditional field
updates of `metaPatch`). -/
def updateProductMetadata (sender : Nat) (batchId : Nat)
    (ipfsHash description imageUrl : String) (s : State) : Except Err State :=
  if !s.authorizedMakers sender then .error .NotAuthorized
  else if s.paused then .error .ContractPaused
  else if batchId = 0 then .error .InvalidBatchId
  else if (s.products batchId).exists' = false then .error .BatchNotFound
  else
    .ok { s with products := upd s.products batchId
                    (metaPatch (s.products batchId) ipfsHash description imageUrl) }

/-! ## Traces of external calls -/

/-- An external state-mutating call of the contract. -/
inductive Op where
  | register (batchId : Nat) (name brand : String) (serialHashes : List Nat)
      (ipfsHash description imageUrl : String)
  | verifyCall (f b : Nat)
  | batchVerifyCall (fs bs : List Nat)
  | authorize (maker : Nat) (grant : Bool)
  | transferOwn (newOwner : Nat)
  | pauseCall
  | unpauseCall
  | updateMeta (batchId : Nat) (ipfsHash description imageUrl : String)
  deriving Repr

/-- A call together with its environment (`msg.sender`, `block.timestamp`). -/
structure Call where
  sender : Nat
  time : Nat
  op : Op
  deriving Repr

/-- Execute one call: a reverting call leaves the state unchanged.  The
second component lists the authenticity outcomes produced by the call,
as (fingerprint, result) pairs in emission order (`verify` yields one,
`batchVerify` one per entry, every other call none). -/
def execOp (c : Call) (s : State) : State × List (Nat × Bool) :=
  match c.op with
  | .register b n br ser ih d iu =>
    (match registerProduct c.sender c.time b n br ser ih d iu s with
     | .ok s' => s' | .error _ => s, [])
  | .verifyCall f b =>
    match verify c.sender c.time f b s with
    | .ok p => (p.2, [(f, p.1)])
    | .error _ => (s, [])
  | .batchVerifyCall fs bs =>
    if s.paused then (s, [])
    else if fs.length ≠ bs.length then (s, [])
    else bvGo c.sender c.time (fs.zip bs) s
  | .authorize m g =>
    (match authorizeManufacturer c.sender m g s with
     | .ok s' => s' | .error _ => s, [])
  | .transferOwn n =>
    (match transferOwnership c.sender n s with
     | .ok s' => s' | .error _ => s, [])
  | .pauseCall =>
    (match pause c.sender s with | .ok s' => s' | .error _ => s, [])
  | .unpauseCall =>
    (match unpause c.sender s with | .ok s' => s' | .error _ => s, [])
  | .updateMeta b ih d iu =>
    (match updateProductMetadata c.sender b ih d iu s with
     | .ok s' => s' | .error _ => s, [])

/-- Execute a sequence of calls, concatenating the authenticity outcomes. -/
def execTrace (cs : List Call) (s : State) : State × List (Nat × Bool) :=
  cs.foldl (fun acc c => ((execOp c acc.1).1, acc.2 ++ (execOp c acc.1).2)) (s, [])

/-- Number of `true` authenticity outcomes recorded for fingerprint `f`. -/
def trueCount (f : Nat) (outs : List (Nat × Bool)) : Nat :=
  (outs.filter fun p => p.1 == f && p.2).length

/-- A fingerprint slot on which no operation has ever acted: default
membership, unverified, empty history. -/
def untouched (f : Nat) (s : State) : Prop :=
  s.serialToBatch f = 0 ∧ s.serialVerified f = false ∧ s.verificationHistory f = []

/-- Whether an `Except` result is a success. -/
def isOkE {ε α : Type} (r : Except ε α) : Bool :=
  match r with | .ok _ => true | .error _ => false

/-- Whether call `c`, executed in state `s`, is a successful product
registration that lists fingerprint `f` among its serial hashes. -/
def registersSerial (f : Nat) (c : Call) (s : State) : Bool :=
  match c.op with
  | .register bid n br ser ih de im =>
    decide (f ∈ ser) && isOkE (registerProduct c.sender c.time bid n br ser ih de im s)
  | _ => false

/-- `avoids f cs s = true` iff no call of the trace `cs` (run from `s`)
is a successful registration listing `f`. -/
def avoids (f : Nat) : List Call → State → Bool
  | [], _ => true
  | c :: cs, s => !registersSerial f c s && avoids f cs (execOp c s).1

/-! ## Concrete states used by the witnesses -/

/-- Extract the post-state of a successful call (default otherwise). -/
def exState (r : Except Err State) (d : State) : State :=
  match r with | .ok s => s | .error _ => d

/-- Freshly deployed contract, deployer address 1. -/
def st0 : State := initState 1

/-- `st0` after registering batch 1 ("Widget"/"Acme") with serials 5 and 6. -/
def st1 : State := exState (registerProduct 1 100 1 "Widget" "Acme" [5, 6] "" "" "" st0) st0

/-- `st1` after registering batch 2 ("Gadget"/"Acme") re-listing serial 5. -/
def st2 : State := exState (registerProduct 1 200 2 "Gadget" "Acme" [5] "" "" "" st1) st1

/-- `st0` after the owner paused the contract. -/
def stPaused : State := exState (pause 1 st0) st0

/-- A state whose every serial is already verified (for monotonicity checks). -/
def stAllVerified : State := { st0 with serialVerified := fun _ => true }

/-! ## Basic lemmas -/

@[simp] lemma upd_same {α : Type} (m : Nat → α) (k : Nat) (v : α) : upd m k v k = v := by
  simp [upd]

lemma upd_other {α : Type} (m : Nat → α) (k v x) (h : x ≠ k) : upd m k v x = m x := by
  simp [upd, h]

@[simp] lemma upd_apply {α : Type} (m : Nat → α) (k : Nat) (v : α) (x : Nat) :
    upd m k v x = if x = k then v else m x := rfl

/-- Writing the same value `b` for every key of `l` into mapping `m`:
a key reads `b` iff it is in `l`, otherwise its old value. -/
lemma foldl_upd_apply (l : List Nat) (m : Nat → Nat) (b x : Nat) :
    (l.foldl (fun m h => upd m h b) m) x = if x ∈ l then b else m x := by
  induction l generalizing m with
  | nil => simp
  | cons a t ihl =>
    simp only [List.foldl_cons, ihl, List.mem_cons]
    by_cases hx : x ∈ t <;> by_cases ha : x = a <;> simp [hx, ha, upd]

/-! ### `verifyCore` projections -/

lemma verifyCore_fst (sender time f b : Nat) (s : State) :
    (verifyCore sender time f b s).1 = !s.serialVerified f := rfl

lemma verifyCore_serialVerified (sender time f b : Nat) (s : State) (g : Nat) :
    (verifyCore sender time f b s).2.serialVerified g
      = (s.serialVerified g || (g == f)) := by
  simp only [verifyCore]
  by_cases h : s.serialVerified f
  · simp [h]
    by_cases hg : g = f <;> simp [hg, h]
  · simp [h, upd]
    by_cases hg : g = f <;> simp [hg, h]

lemma verifyCore_products (sender time f b : Nat) (s : State) :
    (verifyCore sender time f b s).2.products = s.products := by
  simp only [verifyCore]; by_cases h : s.serialVerified f <;> simp [h]

lemma verifyCore_serialToBatch (sender time f b : Nat) (s : State) :
    (verifyCore sender time f b s).2.serialToBatch = s.serialToBatch := by
  simp only [verifyCore]; by_cases h : s.serialVerified f <;> simp [h]

lemma verifyCore_paused (sender time f b : Nat) (s : State) :
    (verifyCore sender time f b s).2.paused = s.paused := by
  simp only [verifyCore]; by_cases h : s.serialVerified f <;> simp [h]

lemma verifyCore_history_other (sender time f b : Nat) (s : State) (g : Nat) (h : g ≠ f) :
    (verifyCore sender time f b s).2.verificationHistory g = s.verificationHistory g := by
  simp only [verifyCore]
  by_cases hv : s.serialVerified f <;> simp [hv, upd, h]

/-! ## C2: single `verify` semantics -/

/-- C2: a `verify(f, b)` call that passes its guards (running system,
nonzero registered batch, matching recorded membership) returns the
negation of `f`'s prior verified status; on a `true` result the status is
set and both `totalVerifications` and the batch's verification count grow
by exactly one, on a `false` result no counter changes; in either case
exactly one `VerificationRecord {f, b, caller, timestamp, outcome}` is
appended to `f`'s history (and the corresponding event is emitted). -/
theorem verify_ok_characterization (sender time f b : Nat) (s : State)
    (hp : s.paused = false) (hb : b ≠ 0)
    (he : (s.products b).exists' = true) (hm : s.serialToBatch f = b) :
    ∃ s', verify sender time f b s = .ok (!s.serialVerified f, s')
      ∧ (s.serialVerified f = false →
           s'.serialVerified f = true
           ∧ s'.totalVerifications = s.totalVerifications + 1
           ∧ s'.batchVerificationCount b = s.batchVerificationCount b + 1)
      ∧ (s.serialVerified f = true →
           s'.serialVerified f = true
           ∧ s'.totalVerifications = s.totalVerifications
           ∧ ∀ b', s'.batchVerificationCount b' = s.batchVerificationCount b')
      ∧ s'.verificationHistory f = s.verificationHistory f ++
          [{ serialHash := f, batchId := b, verifier := sender,
             timestamp := time, isAuthentic := !s.serialVerified f }]
      ∧ (∀ g, g ≠ f → s'.verificationHistory g = s.verificationHistory g)
      ∧ s'.events = s.events ++ [Event.Verified f b (!s.serialVerified f) sender time] := by
  refine ⟨(verifyCore sender time f b s).2, ?_, ?_, ?_, ?_, ?_, ?_⟩
  · have h1 : (!s.serialVerified f, (verifyCore sender time f b s).2)
        = verifyCore sender time f b s := by
      rw [← verifyCore_fst sender time f b s]
    rw [h1]
    simp [verify, hp, hb, he, hm]
  · intro hv; simp [verifyCore, hv, upd]
  · intro hv; simp [verifyCore, hv]
  · by_cases hv : s.serialVerified f <;> simp [verifyCore, hv, upd]
  · intro g hg
    by_cases hv : s.serialVerified f <;> simp [verifyCore, hv, upd, hg]
  · by_cases hv : s.serialVerified f <;> simp [verifyCore, hv]

/-- Witness for C2 at a concrete input: in `st1` (batch 1 registered with
serial 5, nothing verified yet) the guards hold and the theorem applies. -/
theorem verify_ok_characterization_witness :
    (st1.paused = false ∧ (1 : Nat) ≠ 0 ∧ (st1.products 1).exists' = true
      ∧ st1.serialToBatch 5 = 1)
    ∧ (∃ s', verify 9 300 5 1 st1 = .ok (!st1.serialVerified 5, s')
      ∧ (st1.serialVerified 5 = false →
           s'.serialVerified 5 = true
           ∧ s'.totalVerifications = st1.totalVerifications + 1
           ∧ s'.batchVerificationCount 1 = st1.batchVerificationCount 1 + 1)
      ∧ (st1.serialVerified 5 = true →
           s'.serialVerified 5 = true
           ∧ s'.totalVerifications = st1.totalVerifications
           ∧ ∀ b', s'.batchVerificationCount b' = st1.batchVerificationCount b')
      ∧ s'.verificationHistory 5 = st1.verificationHistory 5 ++
          [{ serialHash := 5, batchId := 1, verifier := 9,
             timestamp := 300, isAuthentic := !st1.serialVerified 5 }]
      ∧ (∀ g, g ≠ 5 → s'.verificationHistory g = st1.verificationHistory g)
      ∧ s'.events = st1.events ++ [Event.Verified 5 1 (!st1.serialVerified 5) 9 300]) :=
  ⟨⟨by decide, by decide, by decide, by decide⟩,
    verify_ok_characterization 9 300 5 1 st1 (by decide) (by decide) (by decide) (by decide)⟩

/-! ## C8: `updateProductMetadata` updates exactly the non-empty fields -/

/-- C8: a successful `updateProductMetadata` on a registered nonzero batch
replaces each of the three metadata fields iff the supplied value is
non-empty (empty input leaves the field unchanged, so no field can be set
to empty), and leaves the batch's name, brand, existence flag and creation
timestamp, as well as every other batch, unchanged. -/
theorem updateMetadata_frame (sender bid : Nat) (ih de im : String) (s : State)
    (ha : s.authorizedMakers sender = true) (hp : s.paused = false)
    (hb : bid ≠ 0) (he : (s.products bid).exists' = true) :
    ∃ s', updateProductMetadata sender bid ih de im s = .ok s'
      ∧ (s'.products bid).ipfsHash = (if ih = "" then (s.products bid).ipfsHash else ih)
      ∧ (s'.products bid).description =
          (if de = "" then (s.products bid).description else de)
      ∧ (s'.products bid).imageUrl = (if im = "" then (s.products bid).imageUrl else im)
      ∧ (s'.products bid).name = (s.products bid).name
      ∧ (s'.products bid).brand = (s.products bid).brand
      ∧ (s'.products bid).exists' = (s.products bid).exists'
      ∧ (s'.products bid).registeredAt = (s.products bid).registeredAt
      ∧ (∀ b', b' ≠ bid → s'.products b' = s.products b') := by
  refine ⟨{ s with products := upd s.products bid
                      (metaPatch (s.products bid) ih de im) }, ?_, ?_⟩
  · simp [updateProductMetadata, ha, hp, hb, he]
  · refine ⟨?_, ?_, ?_, ?_, ?_, ?_, ?_, ?_⟩ <;>
      first
      | (intro b' hb'; simp [upd, hb'])
      | (by_cases h1 : ih = "" <;> by_cases h2 : de = "" <;> by_cases h3 : im = "" <;>
          simp [metaPatch, h1, h2, h3, upd])

/-- Witness for C8 at a concrete input: update batch 1's description in
`st1`, leaving the IPFS hash and image URL empty. -/
theorem updateMetadata_frame_witness :
    (st1.authorizedMakers 1 = true ∧ st1.paused = false ∧ (1 : Nat) ≠ 0
      ∧ (st1.products 1).exists' = true)
    ∧ (∃ s', updateProductMetadata 1 1 "" "newdesc" "" st1 = .ok s'
      ∧ (s'.products 1).ipfsHash =
          (if ("" : String) = "" then (st1.products 1).ipfsHash else "")
      ∧ (s'.products 1).description =
          (if ("newdesc" : String) = "" then (st1.products 1).description else "newdesc")
      ∧ (s'.products 1).imageUrl =
          (if ("" : String) = "" then (st1.products 1).imageUrl else "")
      ∧ (s'.products 1).name = (st1.products 1).name
      ∧ (s'.products 1).brand = (st1.products 1).brand
      ∧ (s'.products 1).exists' = (st1.products 1).exists'
      ∧ (s'.products 1).registeredAt = (st1.products 1).registeredAt
      ∧ (∀ b', b' ≠ 1 → s'.products b' = st1.products b')) :=
  ⟨⟨by decide, by decide, by decide, by decide⟩,
    updateMetadata_frame 1 1 "" "newdesc" "" st1 (by decide) (by decide)
      (by decide) (by decide)⟩

/-! ## C5: `transferOwnership` does not touch the enumeration list -/

/-- C5 counterexample: from a fresh deployment by address 1, the owner
successfully transfers ownership to address 2; the authorization flags are
swapped, but the manufacturer enumeration list still contains the old
owner 1 and does not contain the new owner 2 — `transferOwnership` never
touches `manufacturerList`, contradicting the claim that after the
transfer the old owner no longer appears in the enumeration and the new
owner appears in it. -/
theorem transferOwnership_list_cex :
    transferOwnership 1 2 st0 = .ok (exState (transferOwnership 1 2 st0) st0)
    ∧ (exState (transferOwnership 1 2 st0) st0).owner = 2
    ∧ (exState (transferOwnership 1 2 st0) st0).authorizedMakers 1 = false
    ∧ (exState (transferOwnership 1 2 st0) st0).authorizedMakers 2 = true
    ∧ (exState (transferOwnership 1 2 st0) st0).manufacturerList = [1]
    ∧ 1 ∈ (exState (transferOwnership 1 2 st0) st0).manufacturerList
    ∧ 2 ∉ (exState (transferOwnership 1 2 st0) st0).manufacturerList :=
  ⟨rfl, by decide, by decide, by decide, by decide, by decide, by decide⟩

/-- C5 (amended): a successful `transferOwnership(newOwner)` atomically
sets the owner to `newOwner`, revokes the old owner's authorization flag
and grants the new owner's, but leaves the manufacturer enumeration list
completely unchanged: the old owner is not removed from the enumeration
and the new owner is not appended to it. -/
theorem transferOwnership_ok (sender newOwner : Nat) (s : State)
    (h1 : sender = s.owner) (h2 : newOwner ≠ 0) (h3 : newOwner ≠ s.owner) :
    ∃ s', transferOwnership sender newOwner s = .ok s'
      ∧ s'.owner = newOwner
      ∧ s'.authorizedMakers s.owner = false
      ∧ s'.authorizedMakers newOwner = true
      ∧ s'.manufacturerList = s.manufacturerList
      ∧ s'.events = s.events ++ [Event.ManufacturerAuthorized s.owner false,
                                 Event.ManufacturerAuthorized newOwner true] := by
  refine ⟨{ s with
      owner := newOwner
      authorizedMakers := upd (upd s.authorizedMakers s.owner false) newOwner true
      events := s.events ++ [Event.ManufacturerAuthorized s.owner false,
                             Event.ManufacturerAuthorized newOwner true] },
    ?_, ?_, ?_, ?_, ?_, ?_⟩ <;>
    simp [transferOwnership, h1, h2, h3, upd, Ne.symm h3]

/-- Witness for the amended C5 at a concrete input (fresh deployment,
owner 1 transfers to 2). -/
theorem transferOwnership_ok_witness :
    ((1 : Nat) = st0.owner ∧ (2 : Nat) ≠ 0 ∧ (2 : Nat) ≠ st0.owner)
    ∧ (∃ s', transferOwnership 1 2 st0 = .ok s'
      ∧ s'.owner = 2
      ∧ s'.authorizedMakers st0.owner = false
      ∧ s'.authorizedMakers 2 = true
      ∧ s'.manufacturerList = st0.manufacturerList
      ∧ s'.events = st0.events ++ [Event.ManufacturerAuthorized st0.owner false,
                                   Event.ManufacturerAuthorized 2 true]) :=
  ⟨⟨by decide, by decide, by decide⟩,
    transferOwnership_ok 1 2 st0 (by decide) (by decide) (by decide)⟩

/-! ## C4: `registerProduct` validation and effects -/

/-- C4: for an authorized caller on a running system, `registerProduct`
fails with `InvalidBatchId` iff the batch id is zero, with
`EmptyName`/`EmptyBrand` iff the respective string is empty (earlier
checks passing), with `NoSerials` iff the serial list is empty, and with
`BatchExists` iff the id is already registered, the checks being applied
in that order; when all checks pass it creates the batch record,
establishes the serial-to-batch membership for every supplied
fingerprint, and increments `totalProducts` by exactly one.  Moreover —
for every caller and state — a call on an already-registered batch id
never succeeds, so an id can never be registered twice.  (A failing call
reverts, i.e. returns `Except.error` carrying no state.) -/
theorem registerProduct_characterization (sender time bid : Nat)
    (name brand : String) (serials : List Nat) (ih de im : String) (s : State)
    (ha : s.authorizedMakers sender = true) (hp : s.paused = false) :
    (registerProduct sender time bid name brand serials ih de im s
        = .error .InvalidBatchId ↔ bid = 0)
    ∧ (registerProduct sender time bid name brand serials ih de im s
        = .error .EmptyName ↔ bid ≠ 0 ∧ name = "")
    ∧ (registerProduct sender time bid name brand serials ih de im s
        = .error .EmptyBrand ↔ bid ≠ 0 ∧ name ≠ "" ∧ brand = "")
    ∧ (registerProduct sender time bid name brand serials ih de im s
        = .error .NoSerials ↔ bid ≠ 0 ∧ name ≠ "" ∧ brand ≠ "" ∧ serials = [])
    ∧ (registerProduct sender time bid name brand serials ih de im s
        = .error .BatchExists ↔ bid ≠ 0 ∧ name ≠ "" ∧ brand ≠ "" ∧ serials ≠ []
            ∧ (s.products bid).exists' = true)
    ∧ (bid ≠ 0 → name ≠ "" → brand ≠ "" → serials ≠ [] →
        (s.products bid).exists' = false →
        ∃ s', registerProduct sender time bid name brand serials ih de im s = .ok s'
          ∧ s'.products bid = Product.mk name brand true time ih de im
          ∧ (∀ f ∈ serials, s'.serialToBatch f = bid)
          ∧ (∀ f, f ∉ serials → s'.serialToBatch f = s.serialToBatch f)
          ∧ s'.totalProducts = s.totalProducts + 1)
    ∧ (∀ (s₂ : State) sender₂ time₂ (n₂ b₂ : String) (ser₂ : List Nat)
         (i₂ d₂ m₂ : String) (s' : State),
        (s₂.products bid).exists' = true →
        registerProduct sender₂ time₂ bid n₂ b₂ ser₂ i₂ d₂ m₂ s₂ ≠ .ok s') := by
  refine ⟨?_, ?_, ?_, ?_, ?_, ?_, ?_⟩
  · by_cases h1 : bid = 0 <;>
      by_cases h2 : name = "" <;> by_cases h3 : brand = "" <;>
      by_cases h4 : serials = [] <;> by_cases h5 : (s.products bid).exists' <;>
      simp [registerProduct, ha, hp, h1, h2, h3, h4, h5]
  · by_cases h1 : bid = 0 <;>
      by_cases h2 : name = "" <;> by_cases h3 : brand = "" <;>
      by_cases h4 : serials = [] <;> by_cases h5 : (s.products bid).exists' <;>
      simp [registerProduct, ha, hp, h1, h2, h3, h4, h5]
  · by_cases h1 : bid = 0 <;>
      by_cases h2 : name = "" <;> by_cases h3 : brand = "" <;>
      by_cases h4 : serials = [] <;> by_cases h5 : (s.products bid).exists' <;>
      simp [registerProduct, ha, hp, h1, h2, h3, h4, h5]
  · by_cases h1 : bid = 0 <;>
      by_cases h2 : name = "" <;> by_cases h3 : brand = "" <;>
      by_cases h4 : serials = [] <;> by_cases h5 : (s.products bid).exists' <;>
      simp [registerProduct, ha, hp, h1, h2, h3, h4, h5]
  · by_cases h1 : bid = 0 <;>
      by_cases h2 : name = "" <;> by_cases h3 : brand = "" <;>
      by_cases h4 : serials = [] <;> by_cases h5 : (s.products bid).exists' <;>
      simp [registerProduct, ha, hp, h1, h2, h3, h4, h5]
  · intro h1 h2 h3 h4 h5
    refine ⟨{ s with
        products := upd s.products bid (Product.mk name brand true time ih de im)
        serialToBatch := serials.foldl (fun m h => upd m h bid) s.serialToBatch
        totalProducts := s.totalProducts + 1
        events := s.events ++ [Event.ProductRegistered bid name brand serials.length] },
      by simp [registerProduct, ha, hp, h1, h2, h3, h4, h5], ?_, ?_, ?_, ?_⟩
    · simp [upd]
    · intro f hf; simp [foldl_upd_apply, hf]
    · intro f hf; simp [foldl_upd_apply, hf]
    · simp
  · intro s₂ sender₂ time₂ n₂ b₂ ser₂ i₂ d₂ m₂ s' hex
    by_cases g1 : s₂.authorizedMakers sender₂ <;>
      by_cases g2 : s₂.paused <;> by_cases g3 : bid = 0 <;>
      by_cases g4 : n₂ = "" <;> by_cases g5 : b₂ = "" <;> by_cases g6 : ser₂ = [] <;>
      simp [registerProduct, g1, g2, g3, g4, g5, g6, hex]

/-- Witness for C4 at a concrete input: in the fresh deployment `st0` the
deployer 1 is authorized and the system is running, and batch 1 is not yet
registered while in `st1` it is. -/
theorem registerProduct_characterization_witness :
    (st0.authorizedMakers 1 = true ∧ st0.paused = false)
    ∧ (registerProduct 1 100 1 "Widget" "Acme" [5, 6] "" "" "" st0
        = .error .InvalidBatchId ↔ (1 : Nat) = 0) :=
  ⟨⟨by decide, by decide⟩,
    (registerProduct_characterization 1 100 1 "Widget" "Acme" [5, 6] "" "" "" st0
      (by decide) (by decide)).1⟩

/-! ## C6: later registration of the same fingerprint silently wins -/

/-- Inversion of a successful `registerProduct` call: the guards that must
have passed and the exact post-state. -/
lemma registerProduct_ok_elim (sender time bid : Nat) (name brand : String)
    (serials : List Nat) (ih de im : String) (s s' : State)
    (h : registerProduct sender time bid name brand serials ih de im s = .ok s') :
    s.paused = false ∧ bid ≠ 0 ∧ (s.products bid).exists' = false
    ∧ s'.paused = false
    ∧ s'.products = upd s.products bid (Product.mk name brand true time ih de im)
    ∧ s'.serialToBatch = serials.foldl (fun m h => upd m h bid) s.serialToBatch
    ∧ s'.serialVerified = s.serialVerified
    ∧ s'.verificationHistory = s.verificationHistory := by
  simp only [registerProduct] at h
  split_ifs at h with g1 g2 g3 g4 g5 g6 g7 <;> try simp at h
  cases h
  simp only [Bool.not_eq_true] at g2 g7
  exact ⟨g2, g3, g7, g2, rfl, rfl, rfl, rfl⟩

/-- C6: if fingerprint `f` is supplied in two successful registrations,
first for batch `b1` and then for batch `b2 ≠ b1`, the later registration
silently overwrites the recorded membership (`serialToBatch f = b2`), and
any subsequent `verify(f, b)` — for any caller, timestamp, and any
nonzero registered batch `b` other than `f`'s current recorded
membership `b2` — fails with `SerialNotInBatch`; in particular
`verify(f, b1)` does (batch `b1` being nonzero and still registered). -/
theorem membership_last_write_wins (s s1 s2 : State)
    (sender1 sender2 t1 t2 b1 b2 : Nat) (n1 br1 n2 br2 : String)
    (ser1 ser2 : List Nat) (i1 d1 m1 i2 d2 m2 : String) (f : Nat)
    (h1 : registerProduct sender1 t1 b1 n1 br1 ser1 i1 d1 m1 s = .ok s1)
    (hf1 : f ∈ ser1)
    (h2 : registerProduct sender2 t2 b2 n2 br2 ser2 i2 d2 m2 s1 = .ok s2)
    (hf2 : f ∈ ser2)
    (hne : b1 ≠ b2) :
    s2.serialToBatch f = b2
    ∧ (∀ sender t b, b ≠ 0 → (s2.products b).exists' = true →
         b ≠ s2.serialToBatch f →
         verify sender t f b s2 = .error .SerialNotInBatch)
    ∧ (s2.products b1).exists' = true
    ∧ ∀ sender t, verify sender t f b1 s2 = .error .SerialNotInBatch := by
  obtain ⟨_, hb1, _, _, hpr1, _, _, _⟩ :=
    registerProduct_ok_elim sender1 t1 b1 n1 br1 ser1 i1 d1 m1 s s1 h1
  obtain ⟨_, _, _, hp2, hpr2, hsb2, _, _⟩ :=
    registerProduct_ok_elim sender2 t2 b2 n2 br2 ser2 i2 d2 m2 s1 s2 h2
  have hm : s2.serialToBatch f = b2 := by
    rw [hsb2, foldl_upd_apply]; simp [hf2]
  have hex : (s2.products b1).exists' = true := by
    rw [hpr2, upd_other _ _ _ _ hne, hpr1, upd_same]
  have hgen : ∀ sender t b, b ≠ 0 → (s2.products b).exists' = true →
      b ≠ s2.serialToBatch f →
      verify sender t f b s2 = .error .SerialNotInBatch := by
    intro sender t b hb0 hbex hbne
    simp [verify, hp2, hb0, hbex, Ne.symm hbne]
  refine ⟨hm, hgen, hex, fun sender t => ?_⟩
  exact hgen sender t b1 hb1 hex (by rw [hm]; exact hne)

/-- Witness for C6 at a concrete input: serial 5 is listed both in batch 1
(`st1`) and then in batch 2 (`st2`); afterwards its membership is 2, any
verify of 5 against a nonzero registered batch other than 2 fails with
`SerialNotInBatch`, and in particular `verify(5, 1)` does. -/
theorem membership_last_write_wins_witness :
    (registerProduct 1 100 1 "Widget" "Acme" [5, 6] "" "" "" st0 = .ok st1
      ∧ (5 : Nat) ∈ [5, 6]
      ∧ registerProduct 1 200 2 "Gadget" "Acme" [5] "" "" "" st1 = .ok st2
      ∧ (5 : Nat) ∈ [5]
      ∧ (1 : Nat) ≠ 2)
    ∧ (st2.serialToBatch 5 = 2
      ∧ (∀ sender t b, b ≠ 0 → (st2.products b).exists' = true →
           b ≠ st2.serialToBatch 5 →
           verify sender t 5 b st2 = .error .SerialNotInBatch)
      ∧ (st2.products 1).exists' = true
      ∧ ∀ sender t, verify sender t 5 1 st2 = .error .SerialNotInBatch) :=
  ⟨⟨rfl, by decide, rfl, by decide, by decide⟩,
    membership_last_write_wins st0 st1 st2 1 1 100 200 1 2 "Widget" "Acme" "Gadget" "Acme"
      [5, 6] [5] "" "" "" "" "" "" 5 rfl (by decide) rfl (by decide) (by decide)⟩

/-! ## C7: pause gating -/

/-- C7: while the pause flag is set, `verify` and `batchVerify` fail with
the pause-gate error `ContractPaused` for every caller, and
`registerProduct` and `updateProductMetadata` fail with `ContractPaused`
for every authorized caller (their `onlyMaker` check runs first, so an
unauthorized caller is rejected with `NotAuthorized` either way); a
failing call reverts, so no state changes.  `pause`/`unpause` are
owner-privileged (`NotOwner` for anyone else), each requires the opposite
starting state — `pause` fails with the pause-gate error `ContractPaused`
if already paused, `unpause` with `ContractNotPaused` if not paused — and
each flips the flag and emits the state-changed event. -/
theorem pause_gating (s : State) (sender time f b bid : Nat)
    (fs bs ser : List Nat) (n br ihash de im : String) :
    (s.paused = true →
       verify sender time f b s = .error .ContractPaused
       ∧ batchVerify sender time fs bs s = .error .ContractPaused
       ∧ (s.authorizedMakers sender = true →
            registerProduct sender time bid n br ser ihash de im s
                = .error .ContractPaused
            ∧ updateProductMetadata sender bid ihash de im s = .error .ContractPaused))
    ∧ (sender = s.owner →
         (s.paused = false →
            ∃ s', pause sender s = .ok s'
              ∧ s'.paused = true
              ∧ s'.events = s.events ++ [Event.PausedEvent true]
              ∧ unpause sender s = .error .ContractNotPaused)
         ∧ (s.paused = true →
            ∃ s', unpause sender s = .ok s'
              ∧ s'.paused = false
              ∧ s'.events = s.events ++ [Event.PausedEvent false]
              ∧ pause sender s = .error .ContractPaused))
    ∧ (sender ≠ s.owner →
         pause sender s = .error .NotOwner ∧ unpause sender s = .error .NotOwner) := by
  refine ⟨fun hp => ⟨?_, ?_, fun ha => ⟨?_, ?_⟩⟩, fun ho => ⟨fun hp => ?_, fun hp => ?_⟩,
    fun ho => ⟨?_, ?_⟩⟩
  · simp [verify, hp]
  · simp [batchVerify, hp]
  · simp [registerProduct, ha, hp]
  · simp [updateProductMetadata, ha, hp]
  · exact ⟨{ s with paused := true, events := s.events ++ [Event.PausedEvent true] },
      by simp [pause, ho, hp], rfl, rfl, by simp [unpause, ho, hp]⟩
  · exact ⟨{ s with paused := false, events := s.events ++ [Event.PausedEvent false] },
      by simp [unpause, ho, hp], rfl, rfl, by simp [pause, ho, hp]⟩
  · simp [pause, ho]
  · simp [unpause, ho]

/-- Witness for C7 at concrete inputs: in the paused state `stPaused` the
four gated operations fail with `ContractPaused`, and from the fresh
running state `st0` the owner can pause. -/
theorem pause_gating_witness :
    (stPaused.paused = true ∧ stPaused.authorizedMakers 1 = true
      ∧ (1 : Nat) = stPaused.owner ∧ st0.paused = false ∧ (1 : Nat) = st0.owner)
    ∧ (verify 1 50 5 1 stPaused = .error .ContractPaused
      ∧ batchVerify 1 50 [5] [1] stPaused = .error .ContractPaused
      ∧ registerProduct 1 50 3 "N" "B" [9] "" "" "" stPaused = .error .ContractPaused
      ∧ updateProductMetadata 1 3 "" "" "" stPaused = .error .ContractPaused)
    ∧ (∃ s', pause 1 st0 = .ok s'
        ∧ s'.paused = true
        ∧ s'.events = st0.events ++ [Event.PausedEvent true]
        ∧ unpause 1 st0 = .error .ContractNotPaused)
    ∧ (∃ s', unpause 1 stPaused = .ok s'
        ∧ s'.paused = false
        ∧ s'.events = stPaused.events ++ [Event.PausedEvent false]
        ∧ pause 1 stPaused = .error .ContractPaused) :=
  ⟨⟨by decide, by decide, by decide, by decide, by decide⟩,
    ⟨((pause_gating stPaused 1 50 5 1 3 [5] [1] [9] "N" "B" "" "" "").1 (by decide)).1,
     ((pause_gating stPaused 1 50 5 1 3 [5] [1] [9] "N" "B" "" "" "").1 (by decide)).2.1,
     (((pause_gating stPaused 1 50 5 1 3 [5] [1] [9] "N" "B" "" "" "").1
        (by decide)).2.2 (by decide)).1,
     (((pause_gating stPaused 1 50 5 1 3 [5] [1] [9] "N" "B" "" "" "").1
        (by decide)).2.2 (by decide)).2⟩,
    ((pause_gating st0 1 50 5 1 3 [5] [1] [9] "N" "B" "" "" "").2.1
      (by decide)).1 (by decide),
    ((pause_gating stPaused 1 50 5 1 3 [5] [1] [9] "N" "B" "" "" "").2.1
      (by decide)).2 (by decide)⟩

/-! ## C1: per-fingerprint verified status is monotone, `true` at most once -/

lemma trueCount_append (f : Nat) (a b : List (Nat × Bool)) :
    trueCount f (a ++ b) = trueCount f a + trueCount f b := by
  simp [trueCount, List.filter_append]

lemma trueCount_nil (f : Nat) : trueCount f [] = 0 := rfl

lemma trueCount_false (f g : Nat) : trueCount f [(g, false)] = 0 := by
  simp [trueCount]

/-- Inversion of a successful `verify`: the guards held and the result is
the shared body's. -/
lemma verify_ok_elim (sender time f b : Nat) (s : State) (p : Bool × State)
    (h : verify sender time f b s = .ok p) :
    p = verifyCore sender time f b s
    ∧ s.paused = false ∧ b ≠ 0 ∧ (s.products b).exists' = true
    ∧ s.serialToBatch f = b := by
  simp only [verify] at h
  split_ifs at h with g1 g2 g3 g4 <;> try simp at h
  cases h
  simp only [Bool.not_eq_true] at g1
  exact ⟨rfl, g1, g2, by simpa using g3, by simpa using g4⟩

lemma authorizeManufacturer_ok_slots (sender m : Nat) (g : Bool) (s s' : State)
    (h : authorizeManufacturer sender m g s = .ok s') :
    s'.serialVerified = s.serialVerified ∧ s'.serialToBatch = s.serialToBatch
    ∧ s'.verificationHistory = s.verificationHistory ∧ s'.products = s.products := by
  simp only [authorizeManufacturer] at h
  split_ifs at h <;> try simp at h
  all_goals subst h
  all_goals exact ⟨rfl, rfl, rfl, rfl⟩

lemma transferOwnership_ok_slots (sender n : Nat) (s s' : State)
    (h : transferOwnership sender n s = .ok s') :
    s'.serialVerified = s.serialVerified ∧ s'.serialToBatch = s.serialToBatch
    ∧ s'.verificationHistory = s.verificationHistory ∧ s'.products = s.products := by
  simp only [transferOwnership] at h
  split_ifs at h <;> try simp at h
  subst h
  exact ⟨rfl, rfl, rfl, rfl⟩

lemma pause_ok_slots (sender : Nat) (s s' : State) (h : pause sender s = .ok s') :
    s'.serialVerified = s.serialVerified ∧ s'.serialToBatch = s.serialToBatch
    ∧ s'.verificationHistory = s.verificationHistory ∧ s'.products = s.products := by
  simp only [pause] at h
  split_ifs at h <;> try simp at h
  subst h
  exact ⟨rfl, rfl, rfl, rfl⟩

lemma unpause_ok_slots (sender : Nat) (s s' : State) (h : unpause sender s = .ok s') :
    s'.serialVerified = s.serialVerified ∧ s'.serialToBatch = s.serialToBatch
    ∧ s'.verificationHistory = s.verificationHistory ∧ s'.products = s.products := by
  simp only [unpause] at h
  split_ifs at h <;> try simp at h
  subst h
  exact ⟨rfl, rfl, rfl, rfl⟩

lemma updateProductMetadata_ok_slots (sender bid : Nat) (ih de im : String)
    (s s' : State) (h : updateProductMetadata sender bid ih de im s = .ok s') :
    s'.serialVerified = s.serialVerified ∧ s'.serialToBatch = s.serialToBatch
    ∧ s'.verificationHistory = s.verificationHistory := by
  simp only [updateProductMetadata] at h
  split_ifs at h <;> try simp at h
  subst h
  exact ⟨rfl, rfl, rfl⟩

/-- Accumulator decomposition of the `batchVerify` loop. -/
lemma foldl_bvStep_acc (sender time : Nat) (l : List (Nat × Nat)) (s : State)
    (a : List (Nat × Bool)) :
    l.foldl (bvStep sender time) (s, a)
      = ((l.foldl (bvStep sender time) (s, [])).1,
         a ++ (l.foldl (bvStep sender time) (s, [])).2) := by
  induction l generalizing s a with
  | nil => simp
  | cons e t ihl =>
    have hstep : ∀ (acc : List (Nat × Bool)), bvStep sender time (s, acc) e
        = ((bvStep sender time (s, []) e).1, acc ++ (bvStep sender time (s, []) e).2) := by
      intro acc
      by_cases hc : badEntry s e <;> simp [bvStep, hc]
    rcases hsx : bvStep sender time (s, []) e with ⟨s1, x⟩
    rw [List.foldl_cons, List.foldl_cons, hstep a, hsx]
    rw [ihl s1 (a ++ x), ihl s1 x]
    simp

/-- One verification body preserves the `toNat` accounting equation. -/
lemma verifyCore_toNat_step (sender time g b : Nat) (s : State) (f : Nat) :
    ((verifyCore sender time g b s).2.serialVerified f).toNat
      = (s.serialVerified f).toNat
        + trueCount f [(g, (verifyCore sender time g b s).1)] := by
  rw [verifyCore_serialVerified, verifyCore_fst]
  by_cases hg : g = f
  · subst hg
    cases hv : s.serialVerified g <;> simp [trueCount, hv]
  · have : (f == g) = false := by simp [Ne.symm hg]
    simp [trueCount, this, hg]

/-- The `batchVerify` loop satisfies the `toNat` accounting equation. -/
lemma bvGo_toNat (sender time : Nat) (l : List (Nat × Nat)) (s : State) (f : Nat) :
    ((bvGo sender time l s).1.serialVerified f).toNat
      = (s.serialVerified f).toNat + trueCount f (bvGo sender time l s).2 := by
  induction l generalizing s with
  | nil => simp [bvGo, trueCount]
  | cons e t ihl =>
    simp only [bvGo, List.foldl_cons] at *
    by_cases hc : badEntry s e
    · have hstep : bvStep sender time (s, []) e = (s, [(e.1, false)]) := by
        simp [bvStep, hc]
      rw [hstep, foldl_bvStep_acc, trueCount_append, trueCount_false, ihl s]
      omega
    · have hstep : bvStep sender time (s, []) e
          = ((verifyCore sender time e.1 e.2 s).2,
             [(e.1, (verifyCore sender time e.1 e.2 s).1)]) := by
        simp [bvStep, hc]
      rw [hstep, foldl_bvStep_acc, trueCount_append,
          ihl (verifyCore sender time e.1 e.2 s).2,
          verifyCore_toNat_step sender time e.1 e.2 s f]
      omega

/-- Every single call satisfies the `toNat` accounting equation: the
verified bit afterwards counts the prior bit plus the `true` outcomes the
call produced for that fingerprint. -/
lemma execOp_toNat (c : Call) (s : State) (f : Nat) :
    ((execOp c s).1.serialVerified f).toNat
      = (s.serialVerified f).toNat + trueCount f (execOp c s).2 := by
  obtain ⟨sender, time, op⟩ := c
  cases op with
  | register bid n br ser ih de im =>
    simp only [execOp]
    cases h : registerProduct sender time bid n br ser ih de im s with
    | ok s' =>
      obtain ⟨_, _, _, _, _, _, hsv, _⟩ :=
        registerProduct_ok_elim sender time bid n br ser ih de im s s' h
      simp [hsv, trueCount]
    | error e => simp [trueCount]
  | verifyCall g b =>
    simp only [execOp]
    cases h : verify sender time g b s with
    | ok p =>
      obtain ⟨hp, -, -, -, -⟩ := verify_ok_elim sender time g b s p h
      subst hp
      simpa using verifyCore_toNat_step sender time g b s f
    | error e => simp [trueCount]
  | batchVerifyCall fs bs =>
    simp only [execOp]
    by_cases h1 : s.paused <;> by_cases h2 : fs.length ≠ bs.length <;>
      simp [h1, h2, trueCount, bvGo_toNat]
  | authorize m g =>
    simp only [execOp]
    cases h : authorizeManufacturer sender m g s with
    | ok s' =>
      obtain ⟨hsv, -, -, -⟩ := authorizeManufacturer_ok_slots sender m g s s' h
      simp [hsv, trueCount]
    | error e => simp [trueCount]
  | transferOwn n =>
    simp only [execOp]
    cases h : transferOwnership sender n s with
    | ok s' =>
      obtain ⟨hsv, -, -, -⟩ := transferOwnership_ok_slots sender n s s' h
      simp [hsv, trueCount]
    | error e => simp [trueCount]
  | pauseCall =>
    simp only [execOp]
    cases h : pause sender s with
    | ok s' =>
      obtain ⟨hsv, -, -, -⟩ := pause_ok_slots sender s s' h
      simp [hsv, trueCount]
    | error e => simp [trueCount]
  | unpauseCall =>
    simp only [execOp]
    cases h : unpause sender s with
    | ok s' =>
      obtain ⟨hsv, -, -, -⟩ := unpause_ok_slots sender s s' h
      simp [hsv, trueCount]
    | error e => simp [trueCount]
  | updateMeta bid ih de im =>
    simp only [execOp]
    cases h : updateProductMetadata sender bid ih de im s with
    | ok s' =>
      obtain ⟨hsv, -, -⟩ := updateProductMetadata_ok_slots sender bid ih de im s s' h
      simp [hsv, trueCount]
    | error e => simp [trueCount]

/-- Accumulator decomposition of trace execution. -/
lemma execTrace_acc (cs : List Call) (s : State) (a : List (Nat × Bool)) :
    cs.foldl (fun acc c => ((execOp c acc.1).1, acc.2 ++ (execOp c acc.1).2)) (s, a)
      = ((execTrace cs s).1, a ++ (execTrace cs s).2) := by
  induction cs generalizing s a with
  | nil => simp [execTrace]
  | cons c t ihc =>
    simp only [execTrace, List.foldl_cons] at *
    rw [ihc (execOp c s).1 (a ++ (execOp c s).2),
        ihc (execOp c s).1 ([] ++ (execOp c s).2)]
    simp

/-- C1: across any sequence of calls (every operation of the contract,
including `verify` and `batchVerify`), the verified bit of a fingerprint
`f` after the trace equals (in `Bool.toNat` accounting) the bit before the
trace plus the number of `true` verification outcomes the trace produced
for `f`.  Consequently at most one (`verify` call or `batchVerify` entry)
outcome for `f` is `true` over the whole trace — none at all if `f`
started verified — and the bit is monotone: once `true` it is never reset
by any operation. -/
theorem verified_at_most_once (cs : List Call) (s : State) (f : Nat) :
    ((execTrace cs s).1.serialVerified f).toNat
      = (s.serialVerified f).toNat + trueCount f (execTrace cs s).2
    ∧ trueCount f (execTrace cs s).2 + (s.serialVerified f).toNat ≤ 1
    ∧ (s.serialVerified f = true → (execTrace cs s).1.serialVerified f = true) := by
  have key : ∀ (cs : List Call) (s : State),
      ((execTrace cs s).1.serialVerified f).toNat
        = (s.serialVerified f).toNat + trueCount f (execTrace cs s).2 := by
    intro cs
    induction cs with
    | nil => intro s; simp [execTrace, trueCount]
    | cons c t ihc =>
      intro s
      simp only [execTrace, List.foldl_cons]
      rw [execTrace_acc t (execOp c s).1 ([] ++ (execOp c s).2)]
      simp only [List.nil_append]
      rw [trueCount_append]
      have h1 := execOp_toNat c s f
      have h2 := ihc (execOp c s).1
      omega
  have hpost : ((execTrace cs s).1.serialVerified f).toNat ≤ 1 := by
    cases (execTrace cs s).1.serialVerified f <;> simp
  refine ⟨key cs s, ?_, ?_⟩
  · have h1 := key cs s
    rw [Nat.add_comm, ← h1]
    exact hpost
  · intro hpre
    have h2 := key cs s
    rw [hpre] at h2
    cases hfin : (execTrace cs s).1.serialVerified f
    · exfalso
      rw [hfin] at h2
      simp only [Bool.toNat_false, Bool.toNat_true] at h2
      rw [Nat.add_comm] at h2
      exact Nat.succ_ne_zero _ h2.symm
    · rfl

/-- Instantiation of C1 on a concrete trace: register batch 1 with serial
5, verify it twice, batch-verify it once more — the trace yields exactly
one `true` outcome for serial 5, and starting from an already-verified
state yields none and keeps the bit set. -/
theorem verified_at_most_once_witness :
    (stAllVerified.serialVerified 5 = true)
    ∧ (execTrace [⟨1, 10, .register 1 "Widget" "Acme" [5, 6] "" "" ""⟩,
                  ⟨2, 11, .verifyCall 5 1⟩, ⟨3, 12, .verifyCall 5 1⟩,
                  ⟨4, 13, .batchVerifyCall [5] [1]⟩] stAllVerified).1.serialVerified 5
        = true :=
  ⟨rfl,
    (verified_at_most_once [⟨1, 10, .register 1 "Widget" "Acme" [5, 6] "" "" ""⟩,
        ⟨2, 11, .verifyCall 5 1⟩, ⟨3, 12, .verifyCall 5 1⟩,
        ⟨4, 13, .batchVerifyCall [5] [1]⟩] stAllVerified 5).2.2 rfl⟩

/-! ## C3: `batchVerify` semantics -/

/-- Unfolding one iteration of the `batchVerify` loop. -/
lemma bvGo_cons (sender time : Nat) (e : Nat × Nat) (t : List (Nat × Nat)) (s : State) :
    bvGo sender time (e :: t) s
      = ((bvGo sender time t (bvStep sender time (s, []) e).1).1,
         (bvStep sender time (s, []) e).2
           ++ (bvGo sender time t (bvStep sender time (s, []) e).1).2) := by
  rcases hsx : bvStep sender time (s, []) e with ⟨s1, x⟩
  simp only [bvGo, List.foldl_cons, hsx]
  rw [foldl_bvStep_acc sender time t s1 x]

/-- The `batchVerify` loop never changes the product registry, the
membership index, or the pause flag. -/
lemma bvGo_inv (sender time : Nat) (l : List (Nat × Nat)) (s : State) :
    (bvGo sender time l s).1.products = s.products
    ∧ (bvGo sender time l s).1.serialToBatch = s.serialToBatch
    ∧ (bvGo sender time l s).1.paused = s.paused := by
  induction l generalizing s with
  | nil => exact ⟨rfl, rfl, rfl⟩
  | cons e t ihl =>
    rw [bvGo_cons]
    by_cases hb : badEntry s e
    · have hsx : bvStep sender time (s, []) e = (s, [(e.1, false)]) := by
        simp [bvStep, hb]
      rw [hsx]
      exact ihl s
    · have hsx : bvStep sender time (s, []) e
          = ((verifyCore sender time e.1 e.2 s).2,
             [(e.1, (verifyCore sender time e.1 e.2 s).1)]) := by
        simp [bvStep, hb]
      rw [hsx]
      obtain ⟨i1, i2, i3⟩ := ihl (verifyCore sender time e.1 e.2 s).2
      exact ⟨by rw [i1, verifyCore_products], by rw [i2, verifyCore_serialToBatch],
             by rw [i3, verifyCore_paused]⟩

/-- The `batchVerify` loop emits exactly one outcome per entry. -/
lemma bvGo_length (sender time : Nat) (l : List (Nat × Nat)) (s : State) :
    (bvGo sender time l s).2.length = l.length := by
  induction l generalizing s with
  | nil => rfl
  | cons e t ihl =>
    rw [bvGo_cons]
    by_cases hb : badEntry s e
    · have hsx : bvStep sender time (s, []) e = (s, [(e.1, false)]) := by
        simp [bvStep, hb]
      simp [hsx, ihl]
    · have hsx : bvStep sender time (s, []) e
          = ((verifyCore sender time e.1 e.2 s).2,
             [(e.1, (verifyCore sender time e.1 e.2 s).1)]) := by
        simp [bvStep, hb]
      simp [hsx, ihl]

lemma badEntry_congr (s s' : State) (hps : s'.products = s.products)
    (hsb : s'.serialToBatch = s.serialToBatch) (e : Nat × Nat) :
    badEntry s' e ↔ badEntry s e := by
  simp [badEntry, hps, hsb]

lemma get?_zip_of (fs bs : List Nat) (i : Nat) (f b : Nat)
    (h1 : fs.get? i = some f) (h2 : bs.get? i = some b) :
    (fs.zip bs).get? i = some (f, b) := by
  induction fs generalizing bs i with
  | nil => simp at h1
  | cons x xs ihx =>
    cases bs with
    | nil => simp at h2
    | cons y ys =>
      cases i with
      | zero =>
        simp only [List.get?] at h1 h2
        cases h1; cases h2
        rfl
      | succ j =>
        simp only [List.get?] at h1 h2 ⊢
        exact ihx ys j h1 h2

/-- Pointwise description of the `batchVerify` loop on a running system:
a `badEntry` (judged against the pre-loop state, which is sound because
the loop never changes the registry or the membership index) yields
`false` in its slot; every other entry is processed exactly as a single
`verify` call run at the intermediate state reached by the preceding
entries. -/
lemma bvGo_spec (sender time : Nat) (l : List (Nat × Nat)) (s : State)
    (hp : s.paused = false) :
    (∀ i e, l.get? i = some e → badEntry s e →
       ((bvGo sender time l s).2.map Prod.snd).get? i = some false)
    ∧ (∀ i e, l.get? i = some e → ¬badEntry s e →
       ∃ r, ((bvGo sender time l s).2.map Prod.snd).get? i = some r
         ∧ verify sender time e.1 e.2 (bvGo sender time (l.take i) s).1
             = .ok (r, (bvGo sender time (l.take (i + 1)) s).1)) := by
  induction l generalizing s with
  | nil =>
    constructor <;> intro i e h <;> simp at h
  | cons e0 t ihl =>
    by_cases hb : badEntry s e0
    · have hsx : bvStep sender time (s, []) e0 = (s, [(e0.1, false)]) := by
        simp [bvStep, hb]
      constructor
      · intro i e hget hbad
        cases i with
        | zero =>
          rw [bvGo_cons, hsx]
          rfl
        | succ j =>
          rw [bvGo_cons, hsx]
          simp only [List.get?] at hget
          simpa using (ihl s hp).1 j e hget hbad
      · intro i e hget hbad
        cases i with
        | zero =>
          simp only [List.get?] at hget
          cases hget
          exact absurd hb hbad
        | succ j =>
          simp only [List.get?] at hget
          obtain ⟨r, hr, hv⟩ := (ihl s hp).2 j e hget hbad
          refine ⟨r, ?_, ?_⟩
          · rw [bvGo_cons, hsx]
            simpa using hr
          · have ht1 : (e0 :: t).take (j + 1) = e0 :: t.take j := rfl
            have ht2 : (e0 :: t).take (j + 1 + 1) = e0 :: t.take (j + 1) := rfl
            rw [ht1, ht2, bvGo_cons, bvGo_cons, hsx]
            exact hv
    · have hsx : bvStep sender time (s, []) e0
          = ((verifyCore sender time e0.1 e0.2 s).2,
             [(e0.1, (verifyCore sender time e0.1 e0.2 s).1)]) := by
        simp [bvStep, hb]
      have hinv1 : (verifyCore sender time e0.1 e0.2 s).2.products = s.products :=
        verifyCore_products sender time e0.1 e0.2 s
      have hinv2 : (verifyCore sender time e0.1 e0.2 s).2.serialToBatch
          = s.serialToBatch := verifyCore_serialToBatch sender time e0.1 e0.2 s
      have hp1 : (verifyCore sender time e0.1 e0.2 s).2.paused = false := by
        rw [verifyCore_paused]; exact hp
      have hbc := badEntry_congr s (verifyCore sender time e0.1 e0.2 s).2
        hinv1 hinv2
      constructor
      · intro i e hget hbad
        cases i with
        | zero =>
          simp only [List.get?] at hget
          cases hget
          exact absurd hbad hb
        | succ j =>
          simp only [List.get?] at hget
          rw [bvGo_cons, hsx]
          simpa using (ihl (verifyCore sender time e0.1 e0.2 s).2 hp1).1 j e hget
            ((hbc e).mpr hbad)
      · intro i e hget hbad
        cases i with
        | zero =>
          simp only [List.get?] at hget
          cases hget
          refine ⟨(verifyCore sender time e0.1 e0.2 s).1, ?_, ?_⟩
          · rw [bvGo_cons, hsx]
            rfl
          · have hb' := hb
            simp only [badEntry, not_or, not_not, Bool.not_eq_false] at hb'
            obtain ⟨hb1, hb2, hb3⟩ := hb'
            have ht1 : (e0 :: t).take 1 = [e0] := rfl
            have ht0 : (e0 :: t).take 0 = ([] : List (Nat × Nat)) := rfl
            rw [ht0, ht1]
            have hgo1 : (bvGo sender time [e0] s).1
                = (verifyCore sender time e0.1 e0.2 s).2 := by
              rw [show ([e0] : List (Nat × Nat)) = e0 :: [] from rfl, bvGo_cons, hsx]
              rfl
            have hgo0 : (bvGo sender time ([] : List (Nat × Nat)) s).1 = s := rfl
            rw [hgo0, hgo1]
            simp [verify, hp, hb1, hb2, hb3]
        | succ j =>
          simp only [List.get?] at hget
          obtain ⟨r, hr, hv⟩ := (ihl (verifyCore sender time e0.1 e0.2 s).2 hp1).2 j e hget
            (fun hh => hbad ((hbc e).mp hh))
          refine ⟨r, ?_, ?_⟩
          · rw [bvGo_cons, hsx]
            simpa using hr
          · have ht1 : (e0 :: t).take (j + 1) = e0 :: t.take j := rfl
            have ht2 : (e0 :: t).take (j + 1 + 1) = e0 :: t.take (j + 1) := rfl
            rw [ht1, ht2, bvGo_cons, bvGo_cons, hsx]
            exact hv

/-- C3: on a running system, `batchVerify` fails — with `LengthMismatch` —
exactly when the two argument arrays have different lengths.  Otherwise it
returns a boolean array parallel to the inputs (same length, same order):
every entry whose batch id is zero, whose batch is unregistered, or whose
fingerprint membership mismatches the claimed batch gets `false` in its
slot (and is skipped), and every other entry is processed exactly as a
single `verify` call — same state transition, history append and event —
run at the intermediate state reached after the preceding entries. -/
theorem batchVerify_characterization (sender time : Nat) (fs bs : List Nat)
    (s : State) (hp : s.paused = false) :
    (∀ e, batchVerify sender time fs bs s = .error e
        ↔ fs.length ≠ bs.length ∧ e = .LengthMismatch)
    ∧ (fs.length = bs.length →
        ∃ rs s', batchVerify sender time fs bs s = .ok (rs, s')
          ∧ rs.length = fs.length
          ∧ (∀ i f b, fs.get? i = some f → bs.get? i = some b →
               (b = 0 ∨ (s.products b).exists' = false ∨ s.serialToBatch f ≠ b) →
               rs.get? i = some false)
          ∧ (∀ i f b, fs.get? i = some f → bs.get? i = some b →
               b ≠ 0 → (s.products b).exists' = true → s.serialToBatch f = b →
               ∃ r, rs.get? i = some r
                 ∧ verify sender time f b (bvGo sender time ((fs.zip bs).take i) s).1
                     = .ok (r, (bvGo sender time ((fs.zip bs).take (i + 1)) s).1))) := by
  constructor
  · intro e
    by_cases hl : fs.length = bs.length <;> simp [batchVerify, hp, hl, eq_comm]
  · intro hl
    refine ⟨(bvGo sender time (fs.zip bs) s).2.map Prod.snd,
      (bvGo sender time (fs.zip bs) s).1, ?_, ?_, ?_, ?_⟩
    · simp [batchVerify, hp, hl]
    · rw [List.length_map, bvGo_length, List.length_zip, hl, Nat.min_self]
    · intro i f b h1 h2 hbad
      exact (bvGo_spec sender time (fs.zip bs) s hp).1 i (f, b)
        (get?_zip_of fs bs i f b h1 h2) hbad
    · intro i f b h1 h2 hb1 hb2 hb3
      have hbad : ¬badEntry s (f, b) := by
        simp [badEntry, hb1, hb2, hb3]
      exact (bvGo_spec sender time (fs.zip bs) s hp).2 i (f, b)
        (get?_zip_of fs bs i f b h1 h2) hbad

/-- Witness for C3 at concrete inputs: in `st1`, mismatched arrays fail
with `LengthMismatch`, and the parallel-array success case applies to
`[5, 7]`/`[1, 9]` (entry 0 valid, entry 1 an unregistered batch). -/
theorem batchVerify_characterization_witness :
    (st1.paused = false)
    ∧ (batchVerify 4 40 [5] [1, 2] st1 = .error .LengthMismatch
        ↔ ([5] : List Nat).length ≠ ([1, 2] : List Nat).length
          ∧ Err.LengthMismatch = Err.LengthMismatch)
    ∧ (∃ rs s', batchVerify 4 40 [5, 7] [1, 9] st1 = .ok (rs, s')
        ∧ rs.length = ([5, 7] : List Nat).length
        ∧ (∀ i f b, ([5, 7] : List Nat).get? i = some f →
             ([1, 9] : List Nat).get? i = some b →
             (b = 0 ∨ (st1.products b).exists' = false ∨ st1.serialToBatch f ≠ b) →
             rs.get? i = some false)
        ∧ (∀ i f b, ([5, 7] : List Nat).get? i = some f →
             ([1, 9] : List Nat).get? i = some b →
             b ≠ 0 → (st1.products b).exists' = true → st1.serialToBatch f = b →
             ∃ r, rs.get? i = some r
               ∧ verify 4 40 f b (bvGo 4 40 (([5, 7].zip [1, 9]).take i) st1).1
                   = .ok (r, (bvGo 4 40 (([5, 7].zip [1, 9]).take (i + 1)) st1).1))) :=
  ⟨by decide,
    (batchVerify_characterization 4 40 [5] [1, 2] st1 (by decide)).1 .LengthMismatch,
    (batchVerify_characterization 4 40 [5, 7] [1, 9] st1 (by decide)).2 (by decide)⟩

/-! ## C9: revoke/re-grant round trip does not duplicate list entries -/

lemma indexOf_append_cons (l₁ l₂ : List Nat) (a : Nat) (h : a ∉ l₁) :
    (l₁ ++ a :: l₂).indexOf a = l₁.length := by
  induction l₁ with
  | nil => simp [List.indexOf_cons]
  | cons x xs ihx =>
    have hx : x ≠ a := fun hxa => h (by simp [hxa])
    have hxs : a ∉ xs := fun hmem => h (by simp [hmem])
    simp [List.indexOf_cons, hx, ihx hxs]

lemma set_append_cons (l₁ l₂ : List Nat) (a v : Nat) :
    (l₁ ++ a :: l₂).set l₁.length v = l₁ ++ v :: l₂ := by
  induction l₁ with
  | nil => rfl
  | cons x xs ihx => simp [List.set, ihx]

/-- Swap-and-truncate removal of the unique occurrence of `a` removes
every occurrence of `a`. -/
lemma count_swapRemove_of_count_one (l : List Nat) (a : Nat)
    (h : l.count a = 1) :
    (swapRemove l a).count a = 0 := by
  have hmem : a ∈ l := List.count_pos_iff_mem.mp (by omega)
  obtain ⟨l₁, l₂, hl⟩ := List.append_of_mem hmem
  subst hl
  rw [List.count_append, List.count_cons] at h
  simp only [beq_self_eq_true, if_true] at h
  have h1 : l₁.count a = 0 := by omega
  have h2 : l₂.count a = 0 := by omega
  have hnot1 : a ∉ l₁ := List.count_eq_zero.mp h1
  rw [swapRemove, if_pos hmem, indexOf_append_cons l₁ l₂ a hnot1]
  rcases List.eq_nil_or_concat l₂ with hnil | ⟨l₂', c, hcat⟩
  · subst hnil
    rw [List.getLast?_concat, Option.getD_some, set_append_cons,
        List.dropLast_concat]
    exact h1
  · subst hcat
    simp only [List.concat_eq_append] at h2 ⊢
    rw [List.count_append] at h2
    have h2' : l₂'.count a = 0 := by omega
    have hca : a ≠ c := by
      have hc1 := List.count_eq_zero.mp (by omega : (List.count a [c]) = 0)
      simpa using hc1
    have hc : (c == a) = false := by
      simp [Ne.symm hca]
    have hassoc : l₁ ++ a :: (l₂' ++ [c]) = (l₁ ++ a :: l₂') ++ [c] := by
      simp
    have hlast : (l₁ ++ a :: (l₂' ++ [c])).getLast? = some c := by
      rw [hassoc]; exact List.getLast?_concat _
    rw [hlast, Option.getD_some, set_append_cons]
    have hassoc2 : l₁ ++ c :: (l₂' ++ [c]) = (l₁ ++ c :: l₂') ++ [c] := by
      simp
    rw [hassoc2, List.dropLast_concat, List.count_append, List.count_cons, h1, h2', hc]
    rfl

/-- C9: for an address `a` that is currently authorized and appears
exactly once in the enumeration list, revoking and then re-granting it
(by the owner) succeeds, restores the authorized flag to `true`, and
leaves `a` appearing exactly once — not duplicated — in the list; and
granting an already-granted address succeeds without changing the list at
all while still emitting the authorization-changed event. -/
theorem authorize_revoke_regrant (s : State) (sender a : Nat)
    (ho : sender = s.owner) (ha0 : a ≠ 0)
    (hauth : s.authorizedMakers a = true)
    (hcount : s.manufacturerList.count a = 1) :
    (∃ s1 s2, authorizeManufacturer sender a false s = .ok s1
       ∧ authorizeManufacturer sender a true s1 = .ok s2
       ∧ s1.authorizedMakers a = false
       ∧ s2.authorizedMakers a = true
       ∧ s2.manufacturerList.count a = 1)
    ∧ (∀ (s₃ : State) sender₃, sender₃ = s₃.owner → s₃.authorizedMakers a = true →
         ∃ s₄, authorizeManufacturer sender₃ a true s₃ = .ok s₄
           ∧ s₄.manufacturerList = s₃.manufacturerList
           ∧ s₄.authorizedMakers a = true
           ∧ s₄.events = s₃.events ++ [Event.ManufacturerAuthorized a true]) := by
  constructor
  · refine ⟨{ s with
        authorizedMakers := upd s.authorizedMakers a false
        manufacturerList := swapRemove s.manufacturerList a
        events := s.events ++ [Event.ManufacturerAuthorized a false] },
      { s with
        authorizedMakers := upd (upd s.authorizedMakers a false) a true
        manufacturerList := swapRemove s.manufacturerList a ++ [a]
        events := s.events ++ [Event.ManufacturerAuthorized a false,
                               Event.ManufacturerAuthorized a true] },
      ?_, ?_, ?_, ?_, ?_⟩
    · simp [authorizeManufacturer, ho, ha0, hauth]
    · simp [authorizeManufacturer, ho, ha0, upd]
    · simp [upd]
    · simp [upd]
    · rw [List.count_append, count_swapRemove_of_count_one _ _ hcount]
      simp
  · intro s₃ sender₃ ho₃ hauth₃
    refine ⟨{ s₃ with
        authorizedMakers := upd s₃.authorizedMakers a true
        events := s₃.events ++ [Event.ManufacturerAuthorized a true] },
      ?_, rfl, by simp [upd], rfl⟩
    simp [authorizeManufacturer, ho₃, ha0, hauth₃]

/-- Witness for C9 at a concrete input: in the fresh deployment the
deployer 1 is authorized and listed exactly once; the round trip and the
idempotent grant both apply. -/
theorem authorize_revoke_regrant_witness :
    ((1 : Nat) = st0.owner ∧ (1 : Nat) ≠ 0 ∧ st0.authorizedMakers 1 = true
      ∧ st0.manufacturerList.count 1 = 1)
    ∧ (∃ s1 s2, authorizeManufacturer 1 1 false st0 = .ok s1
       ∧ authorizeManufacturer 1 1 true s1 = .ok s2
       ∧ s1.authorizedMakers 1 = false
       ∧ s2.authorizedMakers 1 = true
       ∧ s2.manufacturerList.count 1 = 1)
    ∧ (∀ (s₃ : State) sender₃, sender₃ = s₃.owner → s₃.authorizedMakers 1 = true →
         ∃ s₄, authorizeManufacturer sender₃ 1 true s₃ = .ok s₄
           ∧ s₄.manufacturerList = s₃.manufacturerList
           ∧ s₄.authorizedMakers 1 = true
           ∧ s₄.events = s₃.events ++ [Event.ManufacturerAuthorized 1 true]) :=
  ⟨⟨by decide, by decide, by decide, by decide⟩,
    (authorize_revoke_regrant st0 1 1 (by decide) (by decide) (by decide) (by decide)).1,
    (authorize_revoke_regrant st0 1 1 (by decide) (by decide) (by decide) (by decide)).2⟩

/-! ## C10: a never-registered fingerprint can never be authentic -/

lemma verifyCore_untouched (sender time g b f : Nat) (s : State)
    (hg : f ≠ g) (hu : untouched f s) :
    untouched f (verifyCore sender time g b s).2 := by
  obtain ⟨h1, h2, h3⟩ := hu
  refine ⟨?_, ?_, ?_⟩
  · rw [verifyCore_serialToBatch]; exact h1
  · rw [verifyCore_serialVerified]; simp [h2, hg]
  · rw [verifyCore_history_other sender time g b s f hg]; exact h3

lemma bvGo_untouched (sender time : Nat) (l : List (Nat × Nat)) (s : State)
    (f : Nat) (hu : untouched f s) :
    untouched f (bvGo sender time l s).1 := by
  induction l generalizing s with
  | nil => exact hu
  | cons e t ihl =>
    rw [bvGo_cons]
    by_cases hb : badEntry s e
    · have hsx : bvStep sender time (s, []) e = (s, [(e.1, false)]) := by
        simp [bvStep, hb]
      rw [hsx]
      exact ihl s hu
    · have hsx : bvStep sender time (s, []) e
          = ((verifyCore sender time e.1 e.2 s).2,
             [(e.1, (verifyCore sender time e.1 e.2 s).1)]) := by
        simp [bvStep, hb]
      rw [hsx]
      have hb' := hb
      simp only [badEntry, not_or, not_not, Bool.not_eq_false] at hb'
      obtain ⟨hb1, hb2, hb3⟩ := hb'
      have hfe : f ≠ e.1 := by
        intro hfe
        rw [← hfe] at hb3
        rw [hu.1] at hb3
        exact hb1 hb3.symm
      exact ihl _ (verifyCore_untouched sender time e.1 e.2 f s hfe hu)

/-- A call that is not a successful registration listing `f` preserves the
untouched status of `f`'s slots. -/
lemma execOp_untouched (c : Call) (s : State) (f : Nat) (hu : untouched f s)
    (hreg : registersSerial f c s = false) :
    untouched f (execOp c s).1 := by
  obtain ⟨sender, time, op⟩ := c
  cases op with
  | register bid n br ser ih de im =>
    simp only [execOp]
    cases h : registerProduct sender time bid n br ser ih de im s with
    | ok s' =>
      have hfs : f ∉ ser := by
        simp only [registersSerial, isOkE, h, Bool.and_eq_false_iff] at hreg
        rcases hreg with hreg | hreg
        · simpa using hreg
        · cases hreg
      obtain ⟨-, -, -, -, -, hsb, hsv, hvh⟩ :=
        registerProduct_ok_elim sender time bid n br ser ih de im s s' h
      refine ⟨?_, ?_, ?_⟩
      · rw [hsb, foldl_upd_apply]
        simp [hfs, hu.1]
      · rw [hsv]; exact hu.2.1
      · rw [hvh]; exact hu.2.2
    | error e => exact hu
  | verifyCall g b =>
    simp only [execOp]
    cases h : verify sender time g b s with
    | ok p =>
      obtain ⟨hp, -, hb, -, hm⟩ := verify_ok_elim sender time g b s p h
      have hfg : f ≠ g := by
        intro hfg
        rw [← hfg] at hm
        rw [hu.1] at hm
        exact hb hm.symm
      subst hp
      exact verifyCore_untouched sender time g b f s hfg hu
    | error e => exact hu
  | batchVerifyCall fs bs =>
    simp only [execOp]
    by_cases h1 : s.paused <;> by_cases h2 : fs.length ≠ bs.length <;>
      simp [h1, h2, hu, bvGo_untouched sender time (fs.zip bs) s f hu]
  | authorize m g =>
    simp only [execOp]
    cases h : authorizeManufacturer sender m g s with
    | ok s' =>
      obtain ⟨h1, h2, h3, -⟩ := authorizeManufacturer_ok_slots sender m g s s' h
      exact ⟨by rw [h2]; exact hu.1, by rw [h1]; exact hu.2.1, by rw [h3]; exact hu.2.2⟩
    | error e => exact hu
  | transferOwn n =>
    simp only [execOp]
    cases h : transferOwnership sender n s with
    | ok s' =>
      obtain ⟨h1, h2, h3, -⟩ := transferOwnership_ok_slots sender n s s' h
      exact ⟨by rw [h2]; exact hu.1, by rw [h1]; exact hu.2.1, by rw [h3]; exact hu.2.2⟩
    | error e => exact hu
  | pauseCall =>
    simp only [execOp]
    cases h : pause sender s with
    | ok s' =>
      obtain ⟨h1, h2, h3, -⟩ := pause_ok_slots sender s s' h
      exact ⟨by rw [h2]; exact hu.1, by rw [h1]; exact hu.2.1, by rw [h3]; exact hu.2.2⟩
    | error e => exact hu
  | unpauseCall =>
    simp only [execOp]
    cases h : unpause sender s with
    | ok s' =>
      obtain ⟨h1, h2, h3, -⟩ := unpause_ok_slots sender s s' h
      exact ⟨by rw [h2]; exact hu.1, by rw [h1]; exact hu.2.1, by rw [h3]; exact hu.2.2⟩
    | error e => exact hu
  | updateMeta bid ih de im =>
    simp only [execOp]
    cases h : updateProductMetadata sender bid ih de im s with
    | ok s' =>
      obtain ⟨h1, h2, h3⟩ := updateProductMetadata_ok_slots sender bid ih de im s s' h
      exact ⟨by rw [h2]; exact hu.1, by rw [h1]; exact hu.2.1, by rw [h3]; exact hu.2.2⟩
    | error e => exact hu

lemma execTrace_cons_fst (c : Call) (t : List Call) (s : State) :
    (execTrace (c :: t) s).1 = (execTrace t (execOp c s).1).1 := by
  simp only [execTrace, List.foldl_cons]
  rw [execTrace_acc t (execOp c s).1 ([] ++ (execOp c s).2)]
  rfl

lemma execTrace_untouched (cs : List Call) (s : State) (f : Nat)
    (hu : untouched f s) (h : avoids f cs s = true) :
    untouched f (execTrace cs s).1 := by
  induction cs generalizing s with
  | nil => exact hu
  | cons c t ihc =>
    simp only [avoids, Bool.and_eq_true, Bool.not_eq_true'] at h
    rw [execTrace_cons_fst]
    exact ihc (execOp c s).1 (execOp_untouched c s f hu h.1) h.2

/-- Inversion of a successful `batchVerify`. -/
lemma batchVerify_ok_elim (sender time : Nat) (fs bs : List Nat) (s : State)
    (rs : List Bool) (s' : State)
    (h : batchVerify sender time fs bs s = .ok (rs, s')) :
    s.paused = false ∧ fs.length = bs.length
    ∧ rs = (bvGo sender time (fs.zip bs) s).2.map Prod.snd
    ∧ s' = (bvGo sender time (fs.zip bs) s).1 := by
  simp only [batchVerify] at h
  split_ifs at h with g1 g2 <;> try simp at h
  exact ⟨by simpa using g1, by simpa using g2, h.1.symm, h.2.symm⟩

/-- C10: a fingerprint `f` never listed by any successful registration in
a trace from deployment keeps its default slots (`serialToBatch f = 0`,
unverified, empty history); from the resulting state every `verify(f, b)`
fails (its membership check cannot pass, since `b = 0` is rejected and
`b ≠ 0` differs from the recorded membership 0), every `batchVerify`
entry carrying `f` yields `false`, and even a successful `batchVerify`
call leaves `f`'s verified status and history untouched. -/
theorem unregistered_never_authentic (d f : Nat) (cs : List Call)
    (h : avoids f cs (initState d) = true) :
    untouched f (execTrace cs (initState d)).1
    ∧ (∀ sender time b r s',
         verify sender time f b (execTrace cs (initState d)).1 ≠ .ok (r, s'))
    ∧ (∀ sender time fs bs rs s',
         batchVerify sender time fs bs (execTrace cs (initState d)).1 = .ok (rs, s') →
         (∀ i, fs.get? i = some f → rs.get? i = some false) ∧ untouched f s') := by
  have hu0 : untouched f (initState d) := ⟨rfl, rfl, rfl⟩
  have hu : untouched f (execTrace cs (initState d)).1 :=
    execTrace_untouched cs (initState d) f hu0 h
  refine ⟨hu, ?_, ?_⟩
  · intro sender time b r s' hok
    obtain ⟨-, -, hb, -, hm⟩ :=
      verify_ok_elim sender time f b (execTrace cs (initState d)).1 (r, s') hok
    rw [hu.1] at hm
    exact hb hm.symm
  · intro sender time fs bs rs s' hok
    obtain ⟨hp, hl, hrs, hs'⟩ :=
      batchVerify_ok_elim sender time fs bs (execTrace cs (initState d)).1 rs s' hok
    constructor
    · intro i hfi
      have hilt : i < bs.length := by
        rw [← hl]
        exact (List.get?_eq_some.mp hfi).1
      have hbi : bs.get? i = some (bs.get ⟨i, hilt⟩) := List.get?_eq_get hilt
      have hbad : badEntry (execTrace cs (initState d)).1 (f, bs.get ⟨i, hilt⟩) := by
        by_cases hz : bs.get ⟨i, hilt⟩ = 0
        · exact Or.inl hz
        · refine Or.inr (Or.inr ?_)
          rw [hu.1]
          exact fun hc => hz hc.symm
      rw [hrs]
      exact (bvGo_spec sender time (fs.zip bs) (execTrace cs (initState d)).1 hp).1
        i (f, bs.get ⟨i, hilt⟩) (get?_zip_of fs bs i f (bs.get ⟨i, hilt⟩) hfi hbi) hbad
    · rw [hs']
      exact bvGo_untouched sender time (fs.zip bs) (execTrace cs (initState d)).1 f hu

/-- Witness for C10 at a concrete input: a three-call trace (register
batch 1 with serial 5, verify the unregistered serial 7, batch-verify it
too) never registers serial 7, so the theorem applies to it. -/
theorem unregistered_never_authentic_witness :
    (avoids 7 [⟨1, 10, .register 1 "Widget" "Acme" [5] "" "" ""⟩,
               ⟨2, 11, .verifyCall 7 1⟩, ⟨3, 12, .batchVerifyCall [7] [1]⟩]
        (initState 1) = true)
    ∧ (untouched 7 (execTrace [⟨1, 10, .register 1 "Widget" "Acme" [5] "" "" ""⟩,
               ⟨2, 11, .verifyCall 7 1⟩, ⟨3, 12, .batchVerifyCall [7] [1]⟩]
          (initState 1)).1
      ∧ (∀ sender time b r s',
           verify sender time 7 b (execTrace [⟨1, 10, .register 1 "Widget" "Acme" [5] "" "" ""⟩,
               ⟨2, 11, .verifyCall 7 1⟩, ⟨3, 12, .batchVerifyCall [7] [1]⟩]
              (initState 1)).1 ≠ .ok (r, s'))
      ∧ (∀ sender time fs bs rs s',
           batchVerify sender time fs bs (execTrace [⟨1, 10, .register 1 "Widget" "Acme" [5] "" "" ""⟩,
               ⟨2, 11, .verifyCall 7 1⟩, ⟨3, 12, .batchVerifyCall [7] [1]⟩]
              (initState 1)).1 = .ok (rs, s') →
           (∀ i, fs.get? i = some 7 → rs.get? i = some false) ∧ untouched 7 s')) :=
  ⟨by rfl,
    unregistered_never_authentic 1 7
      [⟨1, 10, .register 1 "Widget" "Acme" [5] "" "" ""⟩,
       ⟨2, 11, .verifyCall 7 1⟩, ⟨3, 12, .batchVerifyCall [7] [1]⟩] (by rfl)⟩

end ChainCheck
